import Mathlib

/-!
Shallow embedding of `internal/bstore/blockstore.go` (the block-storage core:
generation/commit protocol, superblock persistence, unlinking, typed read path,
address allocator, and the per-stream write-lock prologue), together with
theorems settling the specification claims about it.

Machine integers (`uint64`) are modelled as `Nat` with explicit `% 2^64`
wherever the Go code can overflow.  Collaborators that live outside this file
of the repository (the Mongo-backed metadata store, the external linking
algorithm `LinkAndStore`, the payload codec, the block cache implementation)
are modelled at their interface, from the spec, and say so in their doc
comments.
-/

namespace BStore

/-- Width of the `uint64` machine type used throughout the Go source. -/
def U64 : Nat := 2 ^ 64

/-- Sentinel `LatestGeneration = uint64(^(uint64(0)))`, that is `2^64 - 1`. -/
def LatestGeneration : Nat := U64 - 1

/-- Stream identifiers (`uuid.UUID` in Go), abstracted to naturals with
decidable equality; only identity of streams matters to the core. -/
abbrev UUID := Nat

/-- The `Superblock` value: stream id, version (`gen`), tree root address and
the unlinked flag. -/
structure Superblock where
  uuid : UUID
  gen : Nat
  root : Nat
  unlinked : Bool
deriving DecidableEq

/-- Modelled from the spec: `Superblock.Clone` is not under `src/`; the spec
says the pending superblock is derived by cloning the current one, so `Clone`
is a plain value copy. -/
def Superblock.Clone (sb : Superblock) : Superblock := sb

/-- Modelled from the spec: `NewSuperblock` is not under `src/`; the spec says
a fresh superblock is synthesized at version 0 with no root, so the root
address is 0 and the record is not unlinked. -/
def NewSuperblock (id : UUID) : Superblock :=
  { uuid := id, gen := 0, root := 0, unlinked := false }

/-- Modelled from the spec: `Coreblock` lives outside `src/`; the core only
needs its address (`Identifier`), version (`Generation`), `PointWidth` and
`StartTime` stamps plus an opaque payload.  Go zero values are 0 fields and an
empty payload. -/
structure Coreblock where
  Identifier : Nat
  Generation : Nat
  PointWidth : Nat
  StartTime : Int
  payload : List Nat
deriving DecidableEq

/-- Modelled from the spec: `Vectorblock`, the second physical block kind,
with the same stamped header fields as `Coreblock`. -/
structure Vectorblock where
  Identifier : Nat
  Generation : Nat
  PointWidth : Nat
  StartTime : Int
  payload : List Nat
deriving DecidableEq

/-- The `Datablock` interface: a decoded block is either a core block or a
vector block. -/
inductive Datablock where
  | core (c : Coreblock)
  | vector (v : Vectorblock)
deriving DecidableEq

/-- Metadata document stored in the `superblocks` collection (`fake_sblock`
in the source): `Uuid`, `Gen`, `Root`, `Unlinked`. -/
structure fake_sblock where
  Uuid : UUID
  Gen : Nat
  Root : Nat
  Unlinked : Bool
deriving DecidableEq

/-- The metadata store's `superblocks` collection, in insertion order
(`Insert` appends). -/
abbrev SBStore := List fake_sblock

/-- The latest-version query `Find(uuid).Sort(-gen).One`: a record for the
stream with the greatest `Gen` among the matching records, or none.  Ties are
resolved to the earliest record; the source relies on `(uuid, gen)` pairs
being unique (the store is append-only and each commit writes a fresh
version), so the tie-break is unobservable in normal operation. -/
def latestRecord (id : UUID) : SBStore → Option fake_sblock
  | [] => none
  | r :: rest =>
    let best := latestRecord id rest
    if r.Uuid = id then
      match best with
      | none => some r
      | some b => if b.Gen ≤ r.Gen then some r else some b
    else best

/-- The exact-version query `Find(uuid, gen).One`. -/
def findExact (store : SBStore) (id : UUID) (genq : Nat) : Option fake_sblock :=
  store.find? (fun r => r.Uuid == id && r.Gen == genq)

/-- A write transaction (`Generation` in the source): current and pending
superblocks, accumulated pending blocks, the unreferenced-address list, and
the committed flag (`flushed`). -/
structure Generation where
  Cur_SB : Superblock
  New_SB : Superblock
  cblocks : List Coreblock
  vblocks : List Vectorblock
  unref_vaddrs : List Nat
  flushed : Bool
deriving DecidableEq

/-- `UpdateRootAddr`: records the (still-virtual) root pointer on the pending
superblock. -/
def Generation.UpdateRootAddr (g : Generation) (addr : Nat) : Generation :=
  { g with New_SB := { g.New_SB with root := addr } }

/-- `Number`: the pending version of this generation. -/
def Generation.Number (g : Generation) : Nat := g.New_SB.gen

/-- `UnreferenceBlock`: appends an address to the generation's
unreferenced-address list. -/
def Generation.UnreferenceBlock (g : Generation) (vaddr : Nat) : Generation :=
  { g with unref_vaddrs := g.unref_vaddrs ++ [vaddr] }

/-- `AllocateCoreblock` from the source, with the address drawn from the
allocator channel passed explicitly (`allocateBlock` receives it from the
`alloc` channel).  All fields other than `Identifier` and `Generation` stay at
their Go zero values; the pending list gets the new block appended. -/
def Generation.AllocateCoreblock (g : Generation) (addr : Nat) :
    Coreblock × Generation :=
  let cblock : Coreblock :=
    { Identifier := addr, Generation := g.Number, PointWidth := 0,
      StartTime := 0, payload := [] }
  (cblock, { g with cblocks := g.cblocks ++ [cblock] })

/-- `AllocateVectorblock`, symmetric to `AllocateCoreblock`. -/
def Generation.AllocateVectorblock (g : Generation) (addr : Nat) :
    Vectorblock × Generation :=
  let vblock : Vectorblock :=
    { Identifier := addr, Generation := g.Number, PointWidth := 0,
      StartTime := 0, payload := [] }
  (vblock, { g with vblocks := g.vblocks ++ [vblock] })

/-- `ObtainGeneration` from the source, its write-lock prologue aside (that
prologue is modelled separately as a transition system below): query the
latest superblock record for the stream; when none exists synthesize a fresh
superblock, otherwise rebuild the superblock from the record (the source
copies only `uuid`, `root` and `gen` there, so `unlinked` is the Go zero value
`false`); then clone it into the pending superblock and increment its version
(`uint64` addition, hence mod `2^64`). -/
def ObtainGeneration (store : SBStore) (id : UUID) : Generation :=
  let cur : Superblock :=
    match latestRecord id store with
    | none => NewSuperblock id
    | some rs => { uuid := id, root := rs.Root, gen := rs.Gen, unlinked := false }
  let pending : Superblock := { cur.Clone with gen := (cur.gen + 1) % U64 }
  { Cur_SB := cur, New_SB := pending, cblocks := [], vblocks := [],
    unref_vaddrs := [], flushed := false }

/-- The virtual-to-final address mapping returned by the external linking
algorithm `LinkAndStore` (out of scope; specified only at its interface). -/
abbrev AddrMap := Nat → Option Nat

/-- The two failure modes of `Commit`: the recoverable error return
`errors.New("Already Flushed")` on a second call, and the fatal
`log.Panic("Could not obtain root address")` when the root is absent from the
address map (a protocol violation, not a recoverable error). -/
inductive CommitErr where
  | alreadyFlushed
  | rootMissingPanic
deriving DecidableEq

/-- The observable outcome of `Commit`: the generation state after the call,
the metadata store after the call, and the returned value (the address map on
success, an error otherwise). -/
structure CommitResult where
  gen : Generation
  store : SBStore
  ret : Except CommitErr AddrMap

/-- `Commit` from the source: a second call is rejected while the generation
and the store are left untouched; otherwise the external linking algorithm
runs (its resulting address map is the parameter `amap`), the pending block
lists are cleared, the pending root is resolved through the map (a fatal panic
when absent, with nothing persisted), the new superblock record is inserted
(`Unlinked` at its Go zero value `false` — the unreferenced-address list is
not part of the record, see the `XXX TODO` in the source) and the generation
is marked flushed.  The write-lock release is not part of this model. -/
def Generation.Commit (g : Generation) (amap : AddrMap) (store : SBStore) :
    CommitResult :=
  if g.flushed then
    { gen := g, store := store, ret := Except.error CommitErr.alreadyFlushed }
  else
    let g1 : Generation := { g with vblocks := [], cblocks := [] }
    match amap g1.New_SB.root with
    | none =>
      { gen := g1, store := store, ret := Except.error CommitErr.rootMissingPanic }
    | some rootaddr =>
      let g2 : Generation :=
        { g1 with New_SB := { g1.New_SB with root := rootaddr }, flushed := true }
      let fsb : fake_sblock :=
        { Uuid := g2.New_SB.uuid, Gen := g2.New_SB.gen, Root := g2.New_SB.root,
          Unlinked := false }
      { gen := g2, store := store ++ [fsb], ret := Except.ok amap }

/-- `UnlinkGenerations` from the source: iterate the records with matching
uuid, `gen` in the half-open range `[sgen, egen)` and `unlinked = false`, and
upsert each one with `Unlinked` set to true (the upsert carries the same
`Uuid`, `Gen` and `Root` back under the `(uuid, gen)` key, so every other
field of the record is preserved). -/
def UnlinkGenerations (store : SBStore) (id : UUID) (sgen egen : Nat) : SBStore :=
  store.map (fun r =>
    if r.Uuid = id ∧ sgen ≤ r.Gen ∧ r.Gen < egen ∧ r.Unlinked = false then
      { r with Unlinked := true }
    else r)

/-- Conversion of a metadata record back into a `Superblock`, as done at the
end of `LoadSuperblock` (the uuid comes from the argument). -/
def recordToSB (id : UUID) (sb : fake_sblock) : Superblock :=
  { uuid := id, gen := sb.Gen, root := sb.Root, unlinked := sb.Unlinked }

/-- `LoadSuperblock` from the source: the sentinel version dispatches to the
latest-version query, every other version to the exact `(uuid, gen)` query;
`nil` (none) when no record matches. -/
def LoadSuperblock (store : SBStore) (id : UUID) (generation : Nat) :
    Option Superblock :=
  let found :=
    if generation = LatestGeneration then latestRecord id store
    else findExact store id generation
  found.map (recordToSB id)

/-- Modelled from the spec: the payload encoding is out of scope; a stored
buffer is abstracted as a type tag plus the raw payload bytes, and
`DatablockGetBufferType` inspects the tag embedded in the payload. -/
inductive BufferType where
  | Core
  | Vector
  | Strange
deriving DecidableEq

/-- A trimmed raw buffer as returned by `StorageProvider.Read`. -/
structure RawBuffer where
  tag : BufferType
  bytes : List Nat
deriving DecidableEq

/-- Modelled from the spec: the type-tag inspection of a raw buffer. -/
def DatablockGetBufferType (buf : RawBuffer) : BufferType := buf.tag

/-- Modelled from the spec: `Coreblock.Deserialize` is outside `src/`.  The
payload is decoded; the header stamps are whatever the freshly constructed
block holds (Go zero values), because the stored payload is not
self-describing and the read path overwrites the stamps with the
caller-supplied context. -/
def Coreblock.Deserialize (buf : RawBuffer) : Coreblock :=
  { Identifier := 0, Generation := 0, PointWidth := 0, StartTime := 0,
    payload := buf.bytes }

/-- Modelled from the spec: `Vectorblock.Deserialize`, symmetric to the core
block decoder. -/
def Vectorblock.Deserialize (buf : RawBuffer) : Vectorblock :=
  { Identifier := 0, Generation := 0, PointWidth := 0, StartTime := 0,
    payload := buf.bytes }

/-- The read-path state of the `BlockStore`: the block cache (modelled from
the spec as its key-value map — the cache implementation is outside `src/`,
and its recency bookkeeping does not affect which block a `get` returns) and
the storage provider, abstracted as the buffer each address reads back. -/
structure BSState where
  cache : Nat → Option Datablock
  storage : Nat → RawBuffer

/-- Modelled from the spec: `cacheGet` returns the cached block for the
address, unchanged, or a miss. -/
def cacheGet (bs : BSState) (addr : Nat) : Option Datablock := bs.cache addr

/-- Modelled from the spec: `cachePut` binds the address to the block. -/
def cachePut (bs : BSState) (addr : Nat) (db : Datablock) : BSState :=
  { bs with cache := fun a => if a = addr then some db else bs.cache a }

/-- The version stamp carried by a decoded block. -/
def Datablock.generationOf : Datablock → Nat
  | Datablock.core c => c.Generation
  | Datablock.vector v => v.Generation

/-- The point-width stamp carried by a decoded block. -/
def Datablock.pointWidthOf : Datablock → Nat
  | Datablock.core c => c.PointWidth
  | Datablock.vector v => v.PointWidth

/-- The start-time stamp carried by a decoded block. -/
def Datablock.startTimeOf : Datablock → Int
  | Datablock.core c => c.StartTime
  | Datablock.vector v => v.StartTime

/-- `ReadDatablock` from the source: on a cache hit the cached block is
returned unchanged; on a miss the raw buffer is read from the storage
provider, decoded by its type tag, stamped with the caller-supplied
generation, point width and start time, inserted into the cache and returned.
An unrecognized tag is the fatal `log.Panic("Strange datablock type")`,
modelled as `none`. -/
def ReadDatablock (bs : BSState) (addr implGeneration implPointwidth : Nat)
    (implStartTime : Int) : Option (Datablock × BSState) :=
  match cacheGet bs addr with
  | some db => some (db, bs)
  | none =>
    let trimbuf := bs.storage addr
    match DatablockGetBufferType trimbuf with
    | BufferType.Core =>
      let rv0 := Coreblock.Deserialize trimbuf
      let rv : Coreblock :=
        { rv0 with
          Identifier := addr, Generation := implGeneration,
          PointWidth := implPointwidth, StartTime := implStartTime }
      some (Datablock.core rv, cachePut bs addr (Datablock.core rv))
    | BufferType.Vector =>
      let rv0 := Vectorblock.Deserialize trimbuf
      let rv : Vectorblock :=
        { rv0 with
          Identifier := addr, Generation := implGeneration,
          PointWidth := implPointwidth, StartTime := implStartTime }
      some (Datablock.vector rv, cachePut bs addr (Datablock.vector rv))
    | BufferType.Strange => none

/-- One step of the address-generation loop in `NewBlockStore`: increment the
counter with `uint64` wraparound, clamping back to the relocation base when
the incremented value fell below it (the overflow guard in the source). -/
def allocNext (base a : Nat) : Nat :=
  let n := (a + 1) % U64
  if n < base then base else n

/-- The sequence of addresses sent over the `alloc` channel, in order: value
`n` is the `n`-th address delivered to `allocateBlock` (the channel is FIFO,
so consumption order equals generation order).  `RELOCATION_BASE` is a
constant defined outside `src/`, so the sequence is parametric in the base. -/
def allocSeq (base : Nat) : Nat → Nat
  | 0 => base
  | n + 1 => allocNext base (allocSeq base n)

/-- Program counter of one task running the write-lock prologue of
`ObtainGeneration` (the double-checked pattern of the source): read the
registry under the read lock; when the entry is absent, create a fresh
locked mutex and store it under the write lock; when present, acquire the
mutex that was read. -/
inductive LockPC where
  | start
  | sawEmpty
  | created
  | sawLock (m : Nat)
  | opened
deriving DecidableEq

/-- Shared state of two tasks A and B racing through the write-lock prologue
for the same fresh stream key: the registry entry `_wlocks[mk]` for that key
(holding the identity of the stored mutex), the lock bit of each task's own
freshly created mutex (A's mutex is 0, B's mutex is 1), and both program
counters.  Each labelled step is one critical section of the source: the
`RLock`-guarded registry read, the private create-and-lock, the
`Lock`-guarded registry store, or a blocking mutex acquisition. -/
structure LockRace where
  reg : Option Nat
  locked0 : Bool
  locked1 : Bool
  pcA : LockPC
  pcB : LockPC
deriving DecidableEq

/-- The lock bit of mutex `m` (0 is A's fresh mutex, 1 is B's). -/
def LockRace.lockedBit (s : LockRace) (m : Nat) : Bool :=
  if m = 0 then s.locked0 else s.locked1

/-- Set the lock bit of mutex `m`. -/
def LockRace.setLockedBit (s : LockRace) (m : Nat) : LockRace :=
  if m = 0 then { s with locked0 := true } else { s with locked1 := true }

/-- The interleaving semantics of the two racing prologues, one atomic
critical section per step, exactly following source lines 136 through 149:
a task at `start` reads the registry (absent gives `sawEmpty`, present gives
`sawLock m`); a task at `sawEmpty` creates its own mutex and locks it, a
local action that always succeeds (this is the shadowed `mtx := new`
followed by `mtx.Lock()`); a task at `created` stores its own mutex into the
registry, overwriting whatever is there (`_wlocks[mk] = mtx` under `glock`);
a task at `sawLock m` acquires mutex `m` when it is free.  A task reaches
`opened` exactly when `ObtainGeneration` proceeds past the prologue and
returns an open generation. -/
inductive LockStep : LockRace → LockRace → Prop where
  | readAEmpty (s : LockRace) (h1 : s.pcA = LockPC.start) (h2 : s.reg = none) :
      LockStep s { s with pcA := LockPC.sawEmpty }
  | readAFound (s : LockRace) (m : Nat) (h1 : s.pcA = LockPC.start)
      (h2 : s.reg = some m) :
      LockStep s { s with pcA := LockPC.sawLock m }
  | createA (s : LockRace) (h1 : s.pcA = LockPC.sawEmpty) :
      LockStep s { s with locked0 := true, pcA := LockPC.created }
  | storeA (s : LockRace) (h1 : s.pcA = LockPC.created) :
      LockStep s { s with reg := some 0, pcA := LockPC.opened }
  | acquireA (s : LockRace) (m : Nat) (h1 : s.pcA = LockPC.sawLock m)
      (h2 : s.lockedBit m = false) :
      LockStep s { s.setLockedBit m with pcA := LockPC.opened }
  | readBEmpty (s : LockRace) (h1 : s.pcB = LockPC.start) (h2 : s.reg = none) :
      LockStep s { s with pcB := LockPC.sawEmpty }
  | readBFound (s : LockRace) (m : Nat) (h1 : s.pcB = LockPC.start)
      (h2 : s.reg = some m) :
      LockStep s { s with pcB := LockPC.sawLock m }
  | createB (s : LockRace) (h1 : s.pcB = LockPC.sawEmpty) :
      LockStep s { s with locked1 := true, pcB := LockPC.created }
  | storeB (s : LockRace) (h1 : s.pcB = LockPC.created) :
      LockStep s { s with reg := some 1, pcB := LockPC.opened }
  | acquireB (s : LockRace) (m : Nat) (h1 : s.pcB = LockPC.sawLock m)
      (h2 : s.lockedBit m = false) :
      LockStep s { s.setLockedBit m with pcB := LockPC.opened }

/-- Reachability under the interleaving semantics. -/
def LockReach : LockRace → LockRace → Prop :=
  Relation.ReflTransGen LockStep

/-- The initial state for a stream key never seen before: no registry entry,
both tasks about to call `ObtainGeneration`. -/
def lockInit : LockRace :=
  { reg := none, locked0 := false, locked1 := false,
    pcA := LockPC.start, pcB := LockPC.start }

/-- The racy final state: both tasks opened their generation, each holding
its own private mutex, with only B's mutex stored in the registry. -/
def lockDoubleOpen : LockRace :=
  { reg := some 1, locked0 := true, locked1 := true,
    pcA := LockPC.opened, pcB := LockPC.opened }

/-- Committing once from an uncommitted generation with a resolvable root
marks the generation flushed. -/
theorem commit_sets_flushed (g : Generation) (amap : AddrMap) (store : SBStore)
    (r : Nat) (h0 : g.flushed = false) (h1 : amap g.New_SB.root = some r) :
    (g.Commit amap store).gen.flushed = true := by
  simp [Generation.Commit, h0, h1]

/-- A commit on a generation already marked flushed is a complete no-op apart
from the error return. -/
theorem commit_flushed_noop (g : Generation) (amap : AddrMap) (store : SBStore)
    (h : g.flushed = true) :
    g.Commit amap store
      = { gen := g, store := store,
          ret := Except.error CommitErr.alreadyFlushed } := by
  simp [Generation.Commit, h]

/-- Claim C2: once `Commit` has succeeded on a generation, a second `Commit`
call fails with the already-committed error (`errors.New("Already Flushed")`),
inserts no additional superblock record into the metadata store, and leaves
the generation state unchanged. -/
theorem commit_twice_fails (g : Generation) (amap amap2 : AddrMap)
    (store store2 : SBStore) (r : Nat)
    (h0 : g.flushed = false) (h1 : amap g.New_SB.root = some r) :
    ((g.Commit amap store).gen.Commit amap2 store2).ret
        = Except.error CommitErr.alreadyFlushed ∧
    ((g.Commit amap store).gen.Commit amap2 store2).store = store2 ∧
    ((g.Commit amap store).gen.Commit amap2 store2).gen
        = (g.Commit amap store).gen := by
  have hg := commit_sets_flushed g amap store r h0 h1
  rw [commit_flushed_noop _ amap2 store2 hg]
  exact ⟨rfl, rfl, rfl⟩

/-- Claim C9: when the address map returned by the external linking algorithm
does not contain the pending root, `Commit` terminates in the fatal
`rootMissingPanic` (a protocol violation, a different outcome from the
recoverable `alreadyFlushed` error return) and persists no superblock record;
when the root is present, `Commit` replaces the pending root with its resolved
final address and persists exactly that address in the new record. -/
theorem commit_root_resolution (g : Generation) (amap : AddrMap)
    (store : SBStore) (r : Nat) (h0 : g.flushed = false) :
    (amap g.New_SB.root = none →
      (g.Commit amap store).ret = Except.error CommitErr.rootMissingPanic ∧
      (g.Commit amap store).store = store) ∧
    (amap g.New_SB.root = some r →
      (g.Commit amap store).gen.New_SB.root = r ∧
      (g.Commit amap store).ret = Except.ok amap ∧
      (g.Commit amap store).store = store ++
        [{ Uuid := g.New_SB.uuid, Gen := g.New_SB.gen, Root := r,
           Unlinked := false }]) := by
  constructor
  · intro h1
    constructor <;> simp [Generation.Commit, h0, h1]
  · intro h1
    refine ⟨?_, ?_, ?_⟩ <;> simp [Generation.Commit, h0, h1]

/-- Concrete generation used to exhibit the dropped unreferenced-address
list: its unreferenced list holds the address 42, its pending root 50
resolves to 60. -/
def c3Gen : Generation :=
  { Cur_SB := { uuid := 7, gen := 3, root := 44, unlinked := false },
    New_SB := { uuid := 7, gen := 4, root := 50, unlinked := false },
    cblocks := [], vblocks := [], unref_vaddrs := [42], flushed := false }

/-- Address map resolving the pending root 50 of `c3Gen` to 60. -/
def c3Amap : AddrMap := fun a => if a = 50 then some 60 else none

/-- Claim C3 (failing): the superblock record persisted by `Commit` carries
only `Uuid`, `Gen`, `Root` and `Unlinked` — the unreferenced-address list
recorded via `UnreferenceBlock` is not part of it (the source marks this with
an `XXX TODO` comment), so the durable store after committing a generation
whose list holds 42 is identical to the one obtained after committing the
same generation with an empty list. -/
theorem commit_unreferenced_not_persisted :
    c3Gen.unref_vaddrs = [42] ∧
    (c3Gen.Commit c3Amap []).store
      = [{ Uuid := 7, Gen := 4, Root := 60, Unlinked := false }] ∧
    (c3Gen.Commit c3Amap []).store
      = (({ c3Gen with unref_vaddrs := [] } : Generation).Commit
          c3Amap []).store :=
  ⟨rfl, rfl, rfl⟩

/-- Claim C5: `ObtainGeneration` establishes the invariant that the pending
version is the current version plus one (`uint64` addition, mod `2^64`), and
none of `UpdateRootAddr`, `UnreferenceBlock`, `AllocateCoreblock`,
`AllocateVectorblock` or `Commit` changes either version field. -/
theorem generation_version_invariant (store : SBStore) (id : UUID)
    (g : Generation) (a v caddr vaddr : Nat) (amap : AddrMap)
    (st : SBStore) :
    (ObtainGeneration store id).New_SB.gen
        = ((ObtainGeneration store id).Cur_SB.gen + 1) % U64 ∧
    ((g.UpdateRootAddr a).New_SB.gen = g.New_SB.gen
      ∧ (g.UpdateRootAddr a).Cur_SB.gen = g.Cur_SB.gen) ∧
    ((g.UnreferenceBlock v).New_SB.gen = g.New_SB.gen
      ∧ (g.UnreferenceBlock v).Cur_SB.gen = g.Cur_SB.gen) ∧
    ((g.AllocateCoreblock caddr).2.New_SB.gen = g.New_SB.gen
      ∧ (g.AllocateCoreblock caddr).2.Cur_SB.gen = g.Cur_SB.gen) ∧
    ((g.AllocateVectorblock vaddr).2.New_SB.gen = g.New_SB.gen
      ∧ (g.AllocateVectorblock vaddr).2.Cur_SB.gen = g.Cur_SB.gen) ∧
    ((g.Commit amap st).gen.New_SB.gen = g.New_SB.gen
      ∧ (g.Commit amap st).gen.Cur_SB.gen = g.Cur_SB.gen) := by
  refine ⟨?_, ⟨rfl, rfl⟩, ⟨rfl, rfl⟩, ⟨rfl, rfl⟩, ⟨rfl, rfl⟩, ?_⟩
  · cases h : latestRecord id store <;>
      simp [ObtainGeneration, Superblock.Clone, NewSuperblock, h]
  · cases hf : g.flushed
    · cases hm : amap g.New_SB.root <;>
        constructor <;> simp [Generation.Commit, hf, hm]
    · constructor <;> simp [Generation.Commit, hf]

/-- The latest-version query comes back empty exactly when no record of the
stream is in the store. -/
theorem latestRecord_none_iff (id : UUID) (store : SBStore) :
    latestRecord id store = none
      ↔ store.all (fun x => x.Uuid != id) = true := by
  induction store with
  | nil => simp [latestRecord]
  | cons r rest ih =>
    cases hlr : latestRecord id rest with
    | none =>
      by_cases hu : r.Uuid = id
      · simp [latestRecord, hlr, hu]
      · simp [latestRecord, hlr, hu, ih.mp hlr]
    | some b =>
      by_cases hu : r.Uuid = id
      · simp only [latestRecord, hlr, if_pos hu]
        constructor
        · intro hc
          by_cases hg : b.Gen ≤ r.Gen <;> simp [hg] at hc
        · intro hall
          simp [hu] at hall
      · simp only [latestRecord, hlr, if_neg hu]
        constructor
        · intro hc
          simp at hc
        · intro hall
          simp only [List.all_cons, Bool.and_eq_true] at hall
          have hrest := hall.2
          rw [← ih] at hrest
          rw [hrest] at hlr
          simp at hlr

/-- A record produced by the latest-version query belongs to the store, is a
record of the queried stream, and its version is maximal among that stream's
records. -/
theorem latestRecord_spec (id : UUID) (store : SBStore) (r : fake_sblock)
    (h : latestRecord id store = some r) :
    r ∈ store ∧ r.Uuid = id ∧
      ∀ q ∈ store, q.Uuid = id → q.Gen ≤ r.Gen := by
  induction store generalizing r with
  | nil => simp [latestRecord] at h
  | cons x rest ih =>
    cases hlr : latestRecord id rest with
    | none =>
      have hnone := (latestRecord_none_iff id rest).mp hlr
      simp only [latestRecord, hlr] at h
      by_cases hu : x.Uuid = id
      · rw [if_pos hu] at h
        have hx : x = r := by injection h
        subst hx
        refine ⟨List.mem_cons_self x rest, hu, ?_⟩
        intro q hq hqid
        rcases List.mem_cons.mp hq with hqx | hqr
        · subst hqx; exact le_refl _
        · exfalso
          have hb := List.all_eq_true.mp hnone q hqr
          simp [hqid] at hb
      · rw [if_neg hu] at h
        simp at h
    | some b =>
      rcases ih b hlr with ⟨hbmem, hbid, hbmax⟩
      simp only [latestRecord, hlr] at h
      by_cases hu : x.Uuid = id
      · rw [if_pos hu] at h
        by_cases hg : b.Gen ≤ x.Gen
        · rw [if_pos hg] at h
          have hx : x = r := by injection h
          subst hx
          refine ⟨List.mem_cons_self x rest, hu, ?_⟩
          intro q hq hqid
          rcases List.mem_cons.mp hq with hqx | hqr
          · subst hqx; exact le_refl _
          · exact le_trans (hbmax q hqr hqid) hg
        · rw [if_neg hg] at h
          have hb2 : b = r := by injection h
          subst hb2
          refine ⟨List.mem_cons_of_mem x hbmem, hbid, ?_⟩
          intro q hq hqid
          rcases List.mem_cons.mp hq with hqx | hqr
          · subst hqx; exact le_of_not_le hg
          · exact hbmax q hqr hqid
      · rw [if_neg hu] at h
        have hb2 : b = r := by injection h
        subst hb2
        refine ⟨List.mem_cons_of_mem x hbmem, hbid, ?_⟩
        intro q hq hqid
        rcases List.mem_cons.mp hq with hqx | hqr
        · subst hqx; exact absurd hqid hu
        · exact hbmax q hqr hqid

/-- Claim C8: for a stream with no superblock record in the metadata store,
`ObtainGeneration` yields a generation whose current superblock is the
freshly synthesized one — version 0, no root — and whose pending superblock
has version 1.  (`NewSuperblock` is modelled from the spec, being outside
`src/`.) -/
theorem obtainGeneration_fresh_stream (store : SBStore) (id : UUID)
    (h : store.all (fun x => x.Uuid != id) = true) :
    (ObtainGeneration store id).Cur_SB = NewSuperblock id ∧
    (ObtainGeneration store id).Cur_SB.gen = 0 ∧
    (ObtainGeneration store id).Cur_SB.root = 0 ∧
    (ObtainGeneration store id).New_SB.gen = 1 ∧
    (ObtainGeneration store id).New_SB.uuid = id := by
  have hnone : latestRecord id store = none := (latestRecord_none_iff id store).mpr h
  refine ⟨?_, ?_, ?_, ?_, ?_⟩ <;>
    simp [ObtainGeneration, hnone, NewSuperblock, Superblock.Clone, U64]

/-- A record produced by the exact-version query belongs to the store and
matches the queried stream and version. -/
theorem findExact_some_spec (store : SBStore) (id : UUID) (v : Nat)
    (r0 : fake_sblock) (h : findExact store id v = some r0) :
    r0 ∈ store ∧ r0.Uuid = id ∧ r0.Gen = v := by
  have hmem := List.mem_of_find?_eq_some h
  have hp := List.find?_some h
  simp only [Bool.and_eq_true, beq_iff_eq] at hp
  exact ⟨hmem, hp.1, hp.2⟩

/-- Claim C10: `LoadSuperblock` routes the sentinel version `2^64 - 1`
(`LatestGeneration`) to the latest-version query — so no argument ever
performs an exact-version lookup at `2^64 - 1`, and a record with that exact
version can only ever come back as the maximal-version record of its stream —
while every other version value is an exact `(streamID, version)` match, and
`nil` (none) is returned when no matching record exists. -/
theorem loadSuperblock_sentinel_and_exact (store : SBStore) (id : UUID)
    (v : Nat) (r r0 : fake_sblock) (q : fake_sblock) :
    (LoadSuperblock store id LatestGeneration
        = (latestRecord id store).map (recordToSB id)) ∧
    (latestRecord id store = some r →
      r ∈ store ∧ r.Uuid = id ∧ (q ∈ store → q.Uuid = id → q.Gen ≤ r.Gen)) ∧
    (LoadSuperblock store id LatestGeneration = none
        ↔ store.all (fun x => x.Uuid != id) = true) ∧
    (v ≠ LatestGeneration →
      LoadSuperblock store id v = (findExact store id v).map (recordToSB id) ∧
      (findExact store id v = some r0 → r0 ∈ store ∧ r0.Uuid = id ∧ r0.Gen = v) ∧
      (findExact store id v = none → LoadSuperblock store id v = none)) := by
  refine ⟨?_, ?_, ?_, ?_⟩
  · simp [LoadSuperblock]
  · intro h
    rcases latestRecord_spec id store r h with ⟨hmem, hid, hmax⟩
    exact ⟨hmem, hid, fun hq hqid => hmax q hq hqid⟩
  · rw [← latestRecord_none_iff]
    simp [LoadSuperblock]
  · intro hv
    refine ⟨?_, ?_, ?_⟩
    · simp [LoadSuperblock, hv]
    · exact findExact_some_spec store id v r0
    · intro hnone
      simp [LoadSuperblock, hv, hnone]

/-- `find?` commutes with mapping a function that does not change the value
of the predicate. -/
theorem find?_map_of_pres {α : Type} (p : α → Bool) (f : α → α) (l : List α)
    (hf : ∀ x, p (f x) = p x) :
    (l.map f).find? p = (l.find? p).map f := by
  induction l with
  | nil => rfl
  | cons x xs ih =>
    cases hpx : p x with
    | true =>
      rw [List.map_cons, List.find?_cons_of_pos _ (by rw [hf x]; exact hpx),
        List.find?_cons_of_pos _ hpx]
      rfl
    | false =>
      rw [List.map_cons, List.find?_cons_of_neg _ (by simp [hf x, hpx]),
        List.find?_cons_of_neg _ (by simp [hpx]), ih]

/-- The per-record transformation performed by `UnlinkGenerations`: records
of the stream with version in `[sgen, egen)` that are not yet unlinked get
their `Unlinked` flag set; every other record — and every other field — is
left exactly as it was. -/
def unlinkOne (id : UUID) (sgen egen : Nat) (r : fake_sblock) : fake_sblock :=
  if r.Uuid = id ∧ sgen ≤ r.Gen ∧ r.Gen < egen ∧ r.Unlinked = false then
    { r with Unlinked := true }
  else r

/-- `UnlinkGenerations` is the record-wise application of `unlinkOne`. -/
theorem unlinkGenerations_eq_map (store : SBStore) (id : UUID)
    (sgen egen : Nat) :
    UnlinkGenerations store id sgen egen = store.map (unlinkOne id sgen egen) := rfl

/-- Claim C6: `UnlinkGenerations(S, sgen, egen)` sets `unlinked` exactly on
the not-yet-unlinked records of stream S with version in the half-open range
`[sgen, egen)` — `egen` excluded — preserving their `Uuid`, `Gen` and `Root`
(only the `Unlinked` field of a marked record changes) and leaving every
other record untouched, and every record previously loadable by exact
version is still found by the exact-version query, with the same stream,
version and root. -/
theorem unlinkGenerations_halfOpen (store : SBStore) (id : UUID)
    (sgen egen v i : Nat) (r r0 : fake_sblock) (h : sgen < egen) :
    (UnlinkGenerations store id sgen egen).length = store.length ∧
    (store[i]? = some r →
      (UnlinkGenerations store id sgen egen)[i]? =
        some (if r.Uuid = id ∧ sgen ≤ r.Gen ∧ r.Gen < egen ∧ r.Unlinked = false
              then { r with Unlinked := true } else r)) ∧
    (findExact store id v = some r0 →
      findExact (UnlinkGenerations store id sgen egen) id v =
        some (if r0.Uuid = id ∧ sgen ≤ r0.Gen ∧ r0.Gen < egen ∧ r0.Unlinked = false
              then { r0 with Unlinked := true } else r0)) ∧
    ((unlinkOne id sgen egen r0).Uuid = r0.Uuid ∧
      (unlinkOne id sgen egen r0).Gen = r0.Gen ∧
      (unlinkOne id sgen egen r0).Root = r0.Root) := by
  refine ⟨?_, ?_, ?_, ?_⟩
  · rw [unlinkGenerations_eq_map]
    exact List.length_map store _
  · intro hget
    rw [unlinkGenerations_eq_map, List.getElem?_map, hget]
    rfl
  · intro hfind
    have hpres : ∀ x, ((unlinkOne id sgen egen x).Uuid == id
        && (unlinkOne id sgen egen x).Gen == v)
        = (x.Uuid == id && x.Gen == v) := by
      intro x
      by_cases hx : x.Uuid = id ∧ sgen ≤ x.Gen ∧ x.Gen < egen ∧ x.Unlinked = false <;>
        simp [unlinkOne, hx]
    rw [unlinkGenerations_eq_map, findExact, find?_map_of_pres _ _ _ hpres]
    rw [findExact] at hfind
    rw [hfind]
    rfl
  · by_cases hx : r0.Uuid = id ∧ sgen ≤ r0.Gen ∧ r0.Gen < egen ∧ r0.Unlinked = false <;>
      simp [unlinkOne, hx]

/-- Before any wraparound, the allocator counter is the base plus the number
of addresses already delivered. -/
theorem allocSeq_eq_base_add (base n : Nat) (h : base + n < U64) :
    allocSeq base n = base + n := by
  induction n with
  | zero => rfl
  | succ k ih =>
    have hk : base + k < U64 := by omega
    rw [allocSeq, ih hk, allocNext]
    have h1 : base + k + 1 < U64 := by omega
    simp only [Nat.mod_eq_of_lt h1]
    rw [if_neg (by omega)]
    omega

/-- Claim C7: from a fresh `BlockStore` the allocator delivers the addresses
`base, base + 1, base + 2, …` — pairwise distinct and strictly increasing —
starting at the configured relocation base, and when the `uint64` counter
overflows it wraps back to the base.  (`RELOCATION_BASE` is defined outside
`src/`, so everything is parametric in the base.) -/
theorem allocator_strictly_increasing (base n m i j : Nat)
    (h : base + n < U64) (hij : i < j) (hjn : j ≤ n) :
    allocSeq base 0 = base ∧
    allocSeq base n = base + n ∧
    allocSeq base i < allocSeq base j ∧
    (allocSeq base m = U64 - 1 → allocSeq base (m + 1) = base) := by
  refine ⟨rfl, allocSeq_eq_base_add base n h, ?_, ?_⟩
  · have hi : base + i < U64 := by omega
    have hj : base + j < U64 := by omega
    rw [allocSeq_eq_base_add base i hi, allocSeq_eq_base_add base j hj]
    omega
  · intro hm
    rw [allocSeq, hm, allocNext]
    have hU : 0 < U64 := by simp [U64]
    have : U64 - 1 + 1 = U64 := by omega
    rw [this, Nat.mod_self]
    rcases Nat.eq_zero_or_pos base with hb | hb
    · rw [if_neg (by omega), hb]
    · rw [if_pos hb]

/-- The stamps of the block returned by the read path, when it returns one. -/
def readGen (o : Option (Datablock × BSState)) : Option Nat :=
  o.map (fun p => p.1.generationOf)

/-- The point-width stamp of the block returned by the read path. -/
def readPW (o : Option (Datablock × BSState)) : Option Nat :=
  o.map (fun p => p.1.pointWidthOf)

/-- The start-time stamp of the block returned by the read path. -/
def readST (o : Option (Datablock × BSState)) : Option Int :=
  o.map (fun p => p.1.startTimeOf)

/-- The read path succeeded and left its returned block in the cache under
the given address. -/
def cachesReturned (o : Option (Datablock × BSState)) (addr : Nat) : Prop :=
  match o with
  | none => False
  | some p => p.2.cache addr = some p.1

/-- Claim C4, amended: on a cache miss `ReadDatablock` decodes the stored
buffer and stamps the block with the caller-supplied version, point width and
start time, caching the stamped block; on a cache hit the cached block is
returned unchanged — it carries whatever stamps it received when it was
inserted, not the current caller's arguments. -/
theorem readDatablock_stamping (bs : BSState) (addr g pw : Nat) (st : Int)
    (db0 : Datablock) :
    (bs.cache addr = some db0 →
      ReadDatablock bs addr g pw st = some (db0, bs)) ∧
    (bs.cache addr = none →
      DatablockGetBufferType (bs.storage addr) ≠ BufferType.Strange →
      readGen (ReadDatablock bs addr g pw st) = some g ∧
      readPW (ReadDatablock bs addr g pw st) = some pw ∧
      readST (ReadDatablock bs addr g pw st) = some st ∧
      cachesReturned (ReadDatablock bs addr g pw st) addr) := by
  constructor
  · intro hhit
    simp [ReadDatablock, cacheGet, hhit]
  · intro hmiss htag
    cases htg : DatablockGetBufferType (bs.storage addr) with
    | Core =>
      refine ⟨?_, ?_, ?_, ?_⟩ <;>
        simp [ReadDatablock, cacheGet, hmiss, htg, readGen, readPW, readST,
          cachesReturned, Datablock.generationOf, Datablock.pointWidthOf,
          Datablock.startTimeOf, cachePut]
    | Vector =>
      refine ⟨?_, ?_, ?_, ?_⟩ <;>
        simp [ReadDatablock, cacheGet, hmiss, htg, readGen, readPW, readST,
          cachesReturned, Datablock.generationOf, Datablock.pointWidthOf,
          Datablock.startTimeOf, cachePut]
    | Strange => exact absurd htg htag

/-- Storage for the cache-hit counterexample: every address reads back a
core-tagged buffer. -/
def c4Storage : Nat → RawBuffer :=
  fun a => { tag := BufferType.Core, bytes := [a, 5] }

/-- A freshly constructed read-path state: empty cache. -/
def c4Init : BSState := { cache := fun _ => none, storage := c4Storage }

/-- The read-path state after `ReadDatablock(7, 100, 8, 50)` has populated
the cache from the empty initial state. -/
def c4AfterFirst : BSState :=
  match ReadDatablock c4Init 7 100 8 50 with
  | some p => p.2
  | none => c4Init

/-- Claim C4 (failing part): after address 7 was cached by a read that
supplied version 100, point width 8 and start time 50, a second
`ReadDatablock(7, 200, 9, 60)` is served from the cache and returns the block
still stamped 100/8/50 — not the caller-supplied 200/9/60 — so the returned
block carries the caller-supplied context only on the miss path, not
"whether the block is served from the cache or decoded from storage". -/
theorem readDatablock_cacheHit_stale :
    readGen (ReadDatablock c4AfterFirst 7 200 9 60) = some 100 ∧
    readGen (ReadDatablock c4AfterFirst 7 200 9 60) ≠ some 200 ∧
    readPW (ReadDatablock c4AfterFirst 7 200 9 60) = some 8 ∧
    readST (ReadDatablock c4AfterFirst 7 200 9 60) = some 50 := by
  refine ⟨rfl, by decide, rfl, rfl⟩

/-- Claim C1 (failing): under the interleaving semantics of the write-lock
prologue, the double-checked creation race of the source is reachable — both
tasks read the registry before either stores its mutex, each creates and
locks its own private mutex, and both proceed past the prologue.  The final
state has both generations open simultaneously, with task A holding a mutex
(number 0) that is no longer the one stored in the registry (number 1, B's),
refuting "exactly one creator wins and the lock it creates is the one stored
and subsequently used by all callers" and "at most one open generation per
stream". -/
theorem obtainGeneration_lock_race_double_open :
    LockReach lockInit lockDoubleOpen ∧
    lockDoubleOpen.pcA = LockPC.opened ∧
    lockDoubleOpen.pcB = LockPC.opened ∧
    lockDoubleOpen.reg = some 1 ∧
    lockDoubleOpen.locked0 = true ∧
    lockDoubleOpen.locked1 = true := by
  refine ⟨?_, rfl, rfl, rfl, rfl, rfl⟩
  have t1 : LockStep lockInit
      ⟨none, false, false, LockPC.sawEmpty, LockPC.start⟩ :=
    LockStep.readAEmpty lockInit rfl rfl
  have t2 : LockStep ⟨none, false, false, LockPC.sawEmpty, LockPC.start⟩
      ⟨none, false, false, LockPC.sawEmpty, LockPC.sawEmpty⟩ :=
    LockStep.readBEmpty _ rfl rfl
  have t3 : LockStep ⟨none, false, false, LockPC.sawEmpty, LockPC.sawEmpty⟩
      ⟨none, true, false, LockPC.created, LockPC.sawEmpty⟩ :=
    LockStep.createA _ rfl
  have t4 : LockStep ⟨none, true, false, LockPC.created, LockPC.sawEmpty⟩
      ⟨some 0, true, false, LockPC.opened, LockPC.sawEmpty⟩ :=
    LockStep.storeA _ rfl
  have t5 : LockStep ⟨some 0, true, false, LockPC.opened, LockPC.sawEmpty⟩
      ⟨some 0, true, true, LockPC.opened, LockPC.created⟩ :=
    LockStep.createB _ rfl
  have t6 : LockStep ⟨some 0, true, true, LockPC.opened, LockPC.created⟩
      lockDoubleOpen :=
    LockStep.storeB _ rfl
  exact Relation.ReflTransGen.head t1 (Relation.ReflTransGen.head t2
    (Relation.ReflTransGen.head t3 (Relation.ReflTransGen.head t4
      (Relation.ReflTransGen.head t5 (Relation.ReflTransGen.head t6
        Relation.ReflTransGen.refl)))))

/-- An uncommitted generation for stream 7 at version transition 1 to 2,
used as the concrete input of the C2 witness. -/
def w2Gen : Generation :=
  { Cur_SB := ⟨7, 1, 5, false⟩, New_SB := ⟨7, 2, 9, false⟩,
    cblocks := [], vblocks := [], unref_vaddrs := [], flushed := false }

/-- Address map resolving the pending root 9 of `w2Gen` to 21. -/
def w2Amap : AddrMap := fun a => if a = 9 then some 21 else none

/-- Witness for claim C2 at the concrete generation `w2Gen`. -/
theorem commit_twice_fails_witness :
    w2Gen.flushed = false ∧ w2Amap w2Gen.New_SB.root = some 21 ∧
    (((w2Gen.Commit w2Amap []).gen.Commit w2Amap []).ret
        = Except.error CommitErr.alreadyFlushed ∧
      ((w2Gen.Commit w2Amap []).gen.Commit w2Amap []).store = [] ∧
      ((w2Gen.Commit w2Amap []).gen.Commit w2Amap []).gen
        = (w2Gen.Commit w2Amap []).gen) :=
  ⟨rfl, rfl, commit_twice_fails w2Gen w2Amap w2Amap [] [] 21 rfl rfl⟩

/-- An uncommitted generation for stream 3 with pending root 17, used as the
concrete input of the C9 witness. -/
def w9Gen : Generation :=
  { Cur_SB := ⟨3, 0, 0, false⟩, New_SB := ⟨3, 1, 17, false⟩,
    cblocks := [], vblocks := [], unref_vaddrs := [], flushed := false }

/-- Address map resolving the pending root 17 of `w9Gen` to 99. -/
def w9Amap : AddrMap := fun a => if a = 17 then some 99 else none

/-- Witness for claim C9 at the concrete generation `w9Gen`. -/
theorem commit_root_resolution_witness :
    w9Gen.flushed = false ∧
    ((w9Amap w9Gen.New_SB.root = none →
        (w9Gen.Commit w9Amap []).ret = Except.error CommitErr.rootMissingPanic ∧
        (w9Gen.Commit w9Amap []).store = []) ∧
      (w9Amap w9Gen.New_SB.root = some 99 →
        (w9Gen.Commit w9Amap []).gen.New_SB.root = 99 ∧
        (w9Gen.Commit w9Amap []).ret = Except.ok w9Amap ∧
        (w9Gen.Commit w9Amap []).store = [] ++
          [{ Uuid := w9Gen.New_SB.uuid, Gen := w9Gen.New_SB.gen, Root := 99,
             Unlinked := false }])) :=
  ⟨rfl, commit_root_resolution w9Gen w9Amap [] 99 rfl⟩

/-- A store holding only a record of stream 5, so that stream 7 is fresh;
the concrete input of the C8 witness. -/
def w8Store : SBStore := [⟨5, 2, 11, false⟩]

/-- Witness for claim C8 at the concrete store `w8Store` and stream 7. -/
theorem obtainGeneration_fresh_stream_witness :
    w8Store.all (fun x => x.Uuid != 7) = true ∧
    ((ObtainGeneration w8Store 7).Cur_SB = NewSuperblock 7 ∧
      (ObtainGeneration w8Store 7).Cur_SB.gen = 0 ∧
      (ObtainGeneration w8Store 7).Cur_SB.root = 0 ∧
      (ObtainGeneration w8Store 7).New_SB.gen = 1 ∧
      (ObtainGeneration w8Store 7).New_SB.uuid = 7) :=
  ⟨rfl, obtainGeneration_fresh_stream w8Store 7 rfl⟩

/-- Records of stream 7 at versions 1 through 5 plus a record of stream 9,
the concrete input of the C6 witness exercising the spec scenario
`UnlinkGenerations(S, 2, 5)`. -/
def w6Store : SBStore :=
  [⟨7, 1, 10, false⟩, ⟨7, 2, 20, false⟩, ⟨7, 3, 30, false⟩,
   ⟨7, 4, 40, false⟩, ⟨7, 5, 50, false⟩, ⟨9, 3, 60, false⟩]

/-- The version-3 record of stream 7 inside `w6Store`. -/
def w6R : fake_sblock := ⟨7, 3, 30, false⟩

/-- Witness for claim C6 on `UnlinkGenerations(7, 2, 5)` over `w6Store`,
at index 2 (the version-3 record, inside the half-open range). -/
theorem unlinkGenerations_halfOpen_witness :
    2 < 5 ∧
    ((UnlinkGenerations w6Store 7 2 5).length = w6Store.length ∧
      (w6Store[2]? = some w6R →
        (UnlinkGenerations w6Store 7 2 5)[2]? =
          some (if w6R.Uuid = 7 ∧ 2 ≤ w6R.Gen ∧ w6R.Gen < 5 ∧ w6R.Unlinked = false
                then { w6R with Unlinked := true } else w6R)) ∧
      (findExact w6Store 7 3 = some w6R →
        findExact (UnlinkGenerations w6Store 7 2 5) 7 3 =
          some (if w6R.Uuid = 7 ∧ 2 ≤ w6R.Gen ∧ w6R.Gen < 5 ∧ w6R.Unlinked = false
                then { w6R with Unlinked := true } else w6R)) ∧
      ((unlinkOne 7 2 5 w6R).Uuid = w6R.Uuid ∧
        (unlinkOne 7 2 5 w6R).Gen = w6R.Gen ∧
        (unlinkOne 7 2 5 w6R).Root = w6R.Root)) :=
  ⟨by decide, unlinkGenerations_halfOpen w6Store 7 2 5 3 2 w6R w6R (by decide)⟩

/-- Witness for claim C7 at base 1000 with five allocations. -/
theorem allocator_strictly_increasing_witness :
    1000 + 5 < U64 ∧ 1 < 4 ∧ 4 ≤ 5 ∧
    (allocSeq 1000 0 = 1000 ∧
      allocSeq 1000 5 = 1000 + 5 ∧
      allocSeq 1000 1 < allocSeq 1000 4 ∧
      (allocSeq 1000 0 = U64 - 1 → allocSeq 1000 (0 + 1) = 1000)) :=
  ⟨by decide, by decide, by decide,
    allocator_strictly_increasing 1000 5 0 1 4 (by decide) (by decide) (by decide)⟩

/-- A concrete decoded block used to instantiate the cache-hit conjunct of
the C4 witness. -/
def w4Db : Datablock := Datablock.core ⟨0, 0, 0, 0, []⟩

/-- Witness for the amended claim C4 at the fresh state `c4Init`. -/
theorem readDatablock_stamping_witness :
    (c4Init.cache 7 = some w4Db →
      ReadDatablock c4Init 7 100 8 50 = some (w4Db, c4Init)) ∧
    (c4Init.cache 7 = none →
      DatablockGetBufferType (c4Init.storage 7) ≠ BufferType.Strange →
      readGen (ReadDatablock c4Init 7 100 8 50) = some 100 ∧
      readPW (ReadDatablock c4Init 7 100 8 50) = some 8 ∧
      readST (ReadDatablock c4Init 7 100 8 50) = some 50 ∧
      cachesReturned (ReadDatablock c4Init 7 100 8 50) 7) :=
  readDatablock_stamping c4Init 7 100 8 50 w4Db

/-- Two records of stream 7 and one of stream 8, the concrete input of the
C10 witness. -/
def w10Store : SBStore := [⟨7, 0, 10, false⟩, ⟨7, 1, 20, false⟩, ⟨8, 5, 9, true⟩]

/-- The version-1 record of stream 7 inside `w10Store` (the latest one). -/
def w10R : fake_sblock := ⟨7, 1, 20, false⟩

/-- The version-0 record of stream 7 inside `w10Store`. -/
def w10Q : fake_sblock := ⟨7, 0, 10, false⟩

/-- Witness for claim C10 over `w10Store` at stream 7 and exact version 1. -/
theorem loadSuperblock_sentinel_and_exact_witness :
    (LoadSuperblock w10Store 7 LatestGeneration
        = (latestRecord 7 w10Store).map (recordToSB 7)) ∧
    (latestRecord 7 w10Store = some w10R →
      w10R ∈ w10Store ∧ w10R.Uuid = 7 ∧
        (w10Q ∈ w10Store → w10Q.Uuid = 7 → w10Q.Gen ≤ w10R.Gen)) ∧
    (LoadSuperblock w10Store 7 LatestGeneration = none
        ↔ w10Store.all (fun x => x.Uuid != 7) = true) ∧
    (1 ≠ LatestGeneration →
      LoadSuperblock w10Store 7 1 = (findExact w10Store 7 1).map (recordToSB 7) ∧
      (findExact w10Store 7 1 = some w10R →
        w10R ∈ w10Store ∧ w10R.Uuid = 7 ∧ w10R.Gen = 1) ∧
      (findExact w10Store 7 1 = none → LoadSuperblock w10Store 7 1 = none)) :=
  loadSuperblock_sentinel_and_exact w10Store 7 1 w10R w10R w10Q
